import Mathlib

/-!
# Verification of the GraphQLClient engine

A shallow embedding, in Lean 4, of the core client engine implemented in
`src/GraphQLClient.ts`: the HTTP execution pipeline (`executeQueryRaw`),
the cache store (`getOrCreateCacheEntry`, `setCacheEntrySize`,
`allocateCacheSize`), the per-entry Live Response Cell
(`refresh` / `forceRefresh` / completion handler), and the subscription
protocol state machine of `executeSubscription`, together with theorems
settling the specified properties.

JavaScript values appearing in the code (parsed JSON bodies, thrown error
values, message payloads) are embedded as a small `Json` inductive type,
with JavaScript truthiness made explicit.  JS strings are embedded as Lean
strings and `.length` as `String.length`.  Promise identity (used by the
code to detect superseded attempts) is embedded as a numeric attempt
token, and mutable state as explicit state records.
-/

/-- A JavaScript/JSON value, as far as the engine inspects one. -/
inductive Json where
  | null : Json
  | bool : Bool → Json
  | num : Int → Json
  | str : String → Json
  | arr : List Json → Json
  | obj : List (String × Json) → Json

namespace Json

/-- JavaScript truthiness of a value. -/
def truthy : Json → Bool
  | .null => false
  | .bool b => b
  | .num n => n ≠ 0
  | .str s => s ≠ ""
  | .arr _ => true
  | .obj _ => true

/-- Property access `v.f` on a JS value: `some` when the property is
present on an object, `none` (undefined) otherwise. -/
def lookup (v : Json) (f : String) : Option Json :=
  match v with
  | .obj kvs => (kvs.find? (fun kv => kv.1 == f)).map (·.2)
  | _ => none

/-- Truthiness of a possibly-undefined JS value (`undefined` is falsy). -/
def optTruthy : Option Json → Bool
  | none => false
  | some v => v.truthy

/-- The JS `.length` of a value, when the value has one
(arrays and strings); `none` embeds `undefined`. -/
def lengthOf : Json → Option Int
  | .arr l => some (l.length : Int)
  | .str s => some (s.length : Int)
  | _ => none

/-- Escape a character for JSON string output. -/
def escapeChar (c : Char) : String :=
  if c = '"' then "\\\"" else if c = '\\' then "\\\\" else String.singleton c

/-- Escape a string for JSON output (quote and backslash only; the
development only serializes values built from plain characters). -/
def escapeString (s : String) : String :=
  String.join (s.toList.map escapeChar)

mutual

/-- `JSON.stringify` of a value (no spacing, insertion order), as the code
uses it at `JSON.stringify(jsonData).length`. -/
def stringify : Json → String
  | .null => "null"
  | .bool b => if b then "true" else "false"
  | .num n => toString n
  | .str s => "\"" ++ escapeString s ++ "\""
  | .arr l => "[" ++ stringifyList l ++ "]"
  | .obj kvs => "\x7b" ++ stringifyObj kvs ++ "\x7d"

/-- Comma-separated serialization of array elements. -/
def stringifyList : List Json → String
  | [] => ""
  | [v] => stringify v
  | v :: rest => stringify v ++ "," ++ stringifyList rest

/-- Comma-separated serialization of object members. -/
def stringifyObj : List (String × Json) → String
  | [] => ""
  | [kv] => "\"" ++ escapeString kv.1 ++ "\":" ++ stringify kv.2
  | kv :: rest => "\"" ++ escapeString kv.1 ++ "\":" ++ stringify kv.2 ++ "," ++ stringifyObj rest

end

end Json

/-- `parseInt(s, 10)`: skip leading whitespace, read an optional sign and
then decimal digits; `none` embeds `NaN` (no digits found). -/
def jsParseInt (s : String) : Option Int :=
  let chars := s.toList.dropWhile (fun c => c = ' ' ∨ c = '\t' ∨ c = '\n' ∨ c = '\r')
  let signAndRest : Int × List Char :=
    match chars with
    | '-' :: rest => (-1, rest)
    | '+' :: rest => (1, rest)
    | rest => (1, rest)
  let digits := signAndRest.2.takeWhile Char.isDigit
  if digits.isEmpty then none
  else some (signAndRest.1 * (digits.foldl (fun acc c => acc * 10 + (c.toNat - '0'.toNat)) 0 : Nat))

/-- The uniform result record (`IQueryResult`): `data` and `errors` are
possibly-undefined JS values, `size` is a number (`none` embeds `NaN`),
`extensions` possibly-undefined. -/
structure QueryResult where
  data : Option Json := none
  errors : Option Json := none
  networkError : Bool
  size : Option Int := none
  extensions : Option Json := none

example : Json.stringify (Json.obj [("data", Json.obj [("x", Json.num 1)])]) = "\x7b\"data\":\x7b\"x\":1\x7d\x7d" := by rfl
example : jsParseInt "20" = some 20 := by rfl
example : jsParseInt " -42x" = some (-42) := by rfl
example : jsParseInt "x" = none := by rfl

/-! ## HTTP execution pipeline (`executeQueryRaw`)

The pipeline is embedded as a total function from the outcomes of its two
effectful stages — the request-transform hook and the `fetch` call — to
the `QueryResult` the returned promise resolves with.  Totality of this
function embeds the guarantee that the promise never rejects: every
combination of stage outcomes yields a result value. -/

/-- Outcome of the request-transform stage: the hook either succeeded (or
was absent) or threw/rejected with a JS error value. -/
inductive TransformOutcome where
  | ok : TransformOutcome
  | err : Json → TransformOutcome

/-- One HTTP response as the code inspects it: status, status text, the
two headers read, and the outcome of `data.json()` (`Except.error e`
embeds a body that is not valid JSON, rejecting with `e`). -/
structure HttpResponse where
  status : Nat
  statusText : String
  contentTypeHeader : Option String
  contentLengthHeader : Option String
  bodyJson : Except Json Json

/-- Outcome of the `fetch` stage: a response, or a transport rejection. -/
inductive FetchOutcome where
  | ok : HttpResponse → FetchOutcome
  | reject : Json → FetchOutcome

/-- `data.headers.get("Content-Type")?.split(";")[0].trim().toLowerCase()`. -/
def normalizeContentType (h : Option String) : Option String :=
  h.map (fun s => ((s.splitOn ";").headD "").trim.toLower)

/-- Response validation: without strict validation any 2xx or 4xx status;
with it, 2xx additionally requires content type
`application/graphql-response+json` or `application/json` and 4xx
requires `application/graphql-response+json`. -/
def responseValid (validateCT : Bool) (status : Nat) (ctHeader : Option String) : Bool :=
  if validateCT then
    let ct := normalizeContentType ctHeader
    decide ((200 ≤ status ∧ status < 300 ∧
              (ct = some "application/graphql-response+json" ∨ ct = some "application/json")) ∨
            (400 ≤ status ∧ status < 500 ∧ ct = some "application/graphql-response+json"))
  else
    decide ((200 ≤ status ∧ status < 300) ∨ (400 ≤ status ∧ status < 500))

/-- `typeof error === "string" ? error : error.message || "Unknown error from Fetch API"`. -/
def fetchErrMessage (e : Json) : Json :=
  match e with
  | .str s => .str s
  | _ =>
    match e.lookup "message" with
    | some m => if m.truthy then m else .str "Unknown error from Fetch API"
    | none => .str "Unknown error from Fetch API"

/-- `typeof error === "string" ? error : "Error initializing request configuration"`. -/
def transformErrMessage (e : Json) : Json :=
  match e with
  | .str s => .str s
  | _ => .str "Error initializing request configuration"

/-- The result built by the final `.catch` handler: network error with a
message derived from the error value and the error under `extensions`. -/
def fetchCatchResult (e : Json) : QueryResult :=
  { networkError := true,
    errors := some (.arr [.obj [("message", fetchErrMessage e)]]),
    extensions := some (.obj [("underlyingError", e)]),
    size := some 1000 }

/-- The result built when request-configuration setup (in particular the
transform hook) fails. -/
def transformCatchResult (e : Json) : QueryResult :=
  { networkError := true,
    errors := some (.arr [.obj [("message", transformErrMessage e)]]),
    extensions := some (.obj [("underlyingError", e)]),
    size := some 1000 }

/-- The result built for an invalid status/content-type combination:
carries the status text; the body is never consulted. -/
def invalidStatusResult (statusText : String) : QueryResult :=
  { networkError := true,
    errors := some (.arr [.obj [("message", .str statusText)]]),
    size := some 1000 }

/-- `queryRet.errors && queryRet.errors.length`: truthy errors value with
a truthy `.length`. -/
def errorsNonempty (o : Option Json) : Bool :=
  match o with
  | none => false
  | some v => v.truthy && (match v.lengthOf with | some n => decide (n ≠ 0) | none => false)

/-- Building the result from a successfully parsed JSON body: the parsed
object itself, `data` cleared when `errors` is non-empty,
`networkError := false`, and `size` from a truthy `Content-Length` header
via `parseInt`, else the length of the re-serialized JSON. -/
def parseBodyResult (resp : HttpResponse) (j : Json) : QueryResult :=
  { data := if errorsNonempty (j.lookup "errors") then none else j.lookup "data",
    errors := j.lookup "errors",
    networkError := false,
    size :=
      match resp.contentLengthHeader with
      | some s => if s ≠ "" then jsParseInt s else some ((Json.stringify j).length : Int)
      | none => some ((Json.stringify j).length : Int),
    extensions := j.lookup "extensions" }

/-- `executeQueryRaw`, as a function from stage outcomes to the resolved
`QueryResult`.  Matches the promise chain of the source: a transform
failure lands in the configuration-error handler; a fetch rejection or a
JSON-parse rejection lands in the `.catch` handler; an invalid status
yields the status-text result without touching the body. -/
def executeQueryRawResult (validateCT : Bool) (t : TransformOutcome) (f : FetchOutcome) : QueryResult :=
  match t with
  | .err e => transformCatchResult e
  | .ok =>
    match f with
    | .reject e => fetchCatchResult e
    | .ok resp =>
      if responseValid validateCT resp.status resp.contentTypeHeader then
        match resp.bodyJson with
        | .error e => fetchCatchResult e
        | .ok j => parseBodyResult resp j
      else invalidStatusResult resp.statusText

/-! ### Pending-request counter -/

/-- Number of `pendingRequests += 1` statements executed by one
`executeQueryRaw` call: exactly the one at dispatch. -/
def pendingIncrements (_t : TransformOutcome) (_f : FetchOutcome) : Nat := 1

/-- Number of `pendingRequests -= 1` statements executed by one
`executeQueryRaw` call on a given path: one in the configuration-error
handler, one in the fetch rejection handler, one in the fetch fulfillment
handler (the later `.catch` performs no decrement). -/
def pendingDecrements (t : TransformOutcome) (f : FetchOutcome) : Nat :=
  match t with
  | .err _ => 1
  | .ok =>
    match f with
    | .reject _ => 1
    | .ok _ => 1

/-- Counter evolution over an event trace (`true` = a dispatch, `false` =
a completion of one outstanding request).  Returns the counter value and
the number of outstanding requests; `none` embeds the impossible trace in
which a completion arrives with nothing outstanding. -/
def pendingRun : List Bool → Option (Int × Nat)
  | [] => some (0, 0)
  | ev :: rest =>
    match pendingRun rest with
    | none => none
    | some (p, o) =>
      if ev then some (p + 1, o + 1)
      else match o with
        | 0 => none
        | o' + 1 => some (p - 1, o')

/-! ## Cache store

The `Map<string, ICacheEntry>` is embedded as a list of entries in
insertion order (JS `Map` iteration order), together with the running
`cacheSize` total and the configured `maxCacheSize`.  Only the fields the
cache-level operations read are carried here; the per-entry Live Response
Cell is embedded separately below.  `subscribers` is the length of the
subscriber array.  Object identity of entries (`value !== exclude`,
`entry === cacheEntry`) is embedded as key/value comparison, sound
because the map holds at most one live entry object per key. -/

/-- One `ICacheEntry`, restricted to the fields the cache store reads. -/
structure Entry where
  key : String
  size : Int
  expires : Int
  lastUsed : Int
  subscribers : Nat
deriving DecidableEq

/-- The cache store state: entry table in insertion order plus the size
accounting fields. -/
structure CacheState where
  entries : List Entry
  cacheSize : Int
  maxCacheSize : Int
deriving DecidableEq

/-- Sum of the `size` fields of the entries currently in the table. -/
def sumSizes (s : CacheState) : Int :=
  (s.entries.map (·.size)).sum

/-- `if (this.cache.delete(key)) this.cacheSize -= value.size`:
remove the entry stored under `k` (if any) and deduct its size. -/
def deleteEntry (k : String) (s : CacheState) : CacheState :=
  match s.entries.find? (fun x => x.key == k) with
  | some e => { s with entries := s.entries.eraseP (fun x => x.key == k),
                       cacheSize := s.cacheSize - e.size }
  | none => s

/-- Eligibility for the recency-eviction scan: zero subscribers and not
the excluded entry. -/
def eligible (ex : Option String) (e : Entry) : Bool :=
  e.subscribers == 0 && (match ex with | some k => !(e.key == k) | none => true)

/-- The `forEach` fold locating the oldest evictable entry:
`if (!oldestEntry || value.lastUsed < oldestEntry.lastUsed) oldestEntry = value`. -/
def findOldestAux (ex : Option String) : Option Entry → List Entry → Option Entry
  | acc, [] => acc
  | acc, e :: rest =>
    if eligible ex e then
      match acc with
      | none => findOldestAux ex (some e) rest
      | some b =>
        if e.lastUsed < b.lastUsed then findOldestAux ex (some e) rest
        else findOldestAux ex acc rest
    else findOldestAux ex acc rest

/-- The oldest entry with zero subscribers other than the excluded one
(first such entry in iteration order on ties). -/
def findOldest (ex : Option String) (l : List Entry) : Option Entry :=
  findOldestAux ex none l

theorem findOldestAux_mem {ex : Option String} :
    ∀ (l : List Entry) (acc r : Option Entry), findOldestAux ex acc l = r → r.isSome →
      acc = r ∨ ∃ e ∈ l, r = some e ∧ eligible ex e = true := by
  intro l
  induction l with
  | nil => intro acc r h _; left; exact h
  | cons e rest ih =>
    intro acc r h hs
    cases acc with
    | none =>
      by_cases he : eligible ex e = true
      · have h' : findOldestAux ex (some e) rest = r := by simpa [findOldestAux, he] using h
        rcases ih (some e) r h' hs with h1 | ⟨e', he', hr, helig⟩
        · exact Or.inr ⟨e, List.mem_cons_self e rest, h1.symm, he⟩
        · exact Or.inr ⟨e', List.mem_cons_of_mem e he', hr, helig⟩
      · have h' : findOldestAux ex none rest = r := by simpa [findOldestAux, he] using h
        rcases ih none r h' hs with h1 | ⟨e', he', hr, helig⟩
        · exact Or.inl h1
        · exact Or.inr ⟨e', List.mem_cons_of_mem e he', hr, helig⟩
    | some b =>
      by_cases he : eligible ex e = true
      · by_cases hlt : e.lastUsed < b.lastUsed
        · have h' : findOldestAux ex (some e) rest = r := by
            simpa [findOldestAux, he, hlt] using h
          rcases ih (some e) r h' hs with h1 | ⟨e', he', hr, helig⟩
          · exact Or.inr ⟨e, List.mem_cons_self e rest, h1.symm, he⟩
          · exact Or.inr ⟨e', List.mem_cons_of_mem e he', hr, helig⟩
        · have h' : findOldestAux ex (some b) rest = r := by
            simpa [findOldestAux, he, hlt] using h
          rcases ih (some b) r h' hs with h1 | ⟨e', he', hr, helig⟩
          · exact Or.inl h1
          · exact Or.inr ⟨e', List.mem_cons_of_mem e he', hr, helig⟩
      · have h' : findOldestAux ex (some b) rest = r := by simpa [findOldestAux, he] using h
        rcases ih (some b) r h' hs with h1 | ⟨e', he', hr, helig⟩
        · exact Or.inl h1
        · exact Or.inr ⟨e', List.mem_cons_of_mem e he', hr, helig⟩

theorem findOldest_mem {ex : Option String} {l : List Entry} {r : Entry}
    (h : findOldest ex l = some r) : r ∈ l ∧ eligible ex r = true := by
  rcases findOldestAux_mem l none (some r) h rfl with h1 | ⟨e, he, hr, helig⟩
  · exact absurd h1 (by simp)
  · cases hr; exact ⟨he, helig⟩

theorem deleteEntry_length_lt {k : String} {s : CacheState}
    (hx : ∃ x ∈ s.entries, x.key = k) :
    (deleteEntry k s).entries.length < s.entries.length := by
  obtain ⟨x, hmem, hkey⟩ := hx
  have hfind : (s.entries.find? (fun y => y.key == k)).isSome := by
    rw [List.find?_isSome]
    exact ⟨x, hmem, by simp [hkey]⟩
  rcases hf : s.entries.find? (fun y => y.key == k) with _ | e
  · rw [hf] at hfind; simp at hfind
  · have he : e ∈ s.entries := List.mem_of_find?_eq_some hf
    have hpe := List.find?_some hf
    have hlen : (s.entries.eraseP (fun y => y.key == k)).length + 1 = s.entries.length :=
      List.length_eraseP_add_one he hpe
    simp only [deleteEntry, hf]
    omega

/-- The `do … while (true)` recency-eviction loop: while still over
budget, locate the oldest evictable entry and delete it; stop when under
budget or when no evictable entry remains. -/
def evictLoop (newSize : Int) (ex : Option String) (s : CacheState) : CacheState :=
  if s.cacheSize + newSize - s.maxCacheSize ≤ 0 then s
  else
    match h : findOldest ex s.entries with
    | none => s
    | some e => evictLoop newSize ex (deleteEntry e.key s)
termination_by s.entries.length
decreasing_by
  exact deleteEntry_length_lt ⟨e, (findOldest_mem h).1, rfl⟩

/-- Phase 1 of the eviction algorithm: collect every entry with zero
subscribers whose `expires` is before `now`, then delete each collected
entry, deducting its size. -/
def sweepExpired (now : Int) (s : CacheState) : CacheState :=
  (s.entries.filter (fun e => e.subscribers == 0 && decide (e.expires < now))).foldl
    (fun st e => deleteEntry e.key st) s

/-- `allocateCacheSize(newSize, exclude?)`: no-op when
`cacheSize + newSize - maxCacheSize ≤ 0`; otherwise sweep expired idle
entries, then run the recency-eviction loop. -/
def allocateCacheSize (now : Int) (newSize : Int) (ex : Option String) (s : CacheState) : CacheState :=
  if s.cacheSize + newSize - s.maxCacheSize ≤ 0 then s
  else evictLoop newSize ex (sweepExpired now s)

/-- Replace the entry stored under `k` (in place, preserving position). -/
def updateEntry (k : String) (e' : Entry) (s : CacheState) : CacheState :=
  { s with entries := s.entries.map (fun x => if x.key == k then e' else x) }

/-- The new-entry path of `getOrCreateCacheEntry`: build the entry with
`expires = 0`, `lastUsed = now`, no subscribers and initial size 1000
(the factory wires the response cell and starts the first refresh, but
its completion handler runs asynchronously, so the size is still 1000
here), make room for it, account its size and append it to the table. -/
def createCacheEntry (key : String) (now : Int) (s : CacheState) : CacheState × Entry :=
  let newEntry : Entry := { key := key, expires := 0, lastUsed := now, subscribers := 0, size := 1000 }
  let s1 := allocateCacheSize now newEntry.size none s
  ({ s1 with cacheSize := s1.cacheSize + newEntry.size,
             entries := s1.entries ++ [newEntry] }, newEntry)

/-- `getOrCreateCacheEntry(key, factory, noCache)`: reuse a found entry
(updating `lastUsed`) when it has subscribers or `noCache` is false;
evict a found idle entry under `noCache` and fall through to creation;
create a fresh entry otherwise.  Returns the updated store and the entry
handed back to the caller. -/
def getOrCreateCacheEntry (key : String) (noCache : Bool) (now : Int) (s : CacheState) :
    CacheState × Entry :=
  match s.entries.find? (fun x => x.key == key) with
  | some e =>
    if 0 < e.subscribers ∨ noCache = false then
      let e' := { e with lastUsed := now }
      (updateEntry key e' s, e')
    else
      createCacheEntry key now (deleteEntry key s)
  | none => createCacheEntry key now s

/-- `setCacheEntrySize(cacheEntry, newSize)`: when the store still holds
this very entry, deduct its size, re-run eviction accounting for the new
size (excluding this entry from the recency loop), then add the entry's
`size` field back — which at that point still holds the *old* size,
because `cacheEntry.size = newSize` is only assigned afterwards.  The
assignment itself updates the (shared) entry object, hence the stored
entry when present.  Returns the updated store and the caller's updated
entry object. -/
def setCacheEntrySize (cacheEntry : Entry) (newSize : Int) (now : Int) (s : CacheState) :
    CacheState × Entry :=
  match s.entries.find? (fun x => x.key == cacheEntry.key) with
  | some entry =>
    if entry = cacheEntry then
      let s1 := { s with cacheSize := s.cacheSize - entry.size }
      let s2 := allocateCacheSize now newSize (some entry.key) s1
      let s3 := { s2 with cacheSize := s2.cacheSize + entry.size }
      let newEntries := s3.entries.map
        (fun x => if x.key == cacheEntry.key then { x with size := newSize } else x)
      ({ s3 with entries := newEntries }, { cacheEntry with size := newSize })
    else (s, { cacheEntry with size := newSize })
  | none => (s, { cacheEntry with size := newSize })

/-! ## Live Response Cell

One cache entry's response cell, embedded with promise identity as a
numeric attempt token (`resultPromise`), the observable notification and
dispatch traces made explicit, and the entry-level fields the completion
handler writes (`expires`, `size`). -/

/-- State of one entry's Live Response Cell plus the entry fields its
handlers touch.  `notified` records every subscriber callback invocation
(as the payload delivered); `dispatches` counts `executeQueryRaw` calls. -/
structure CellState where
  result : Option QueryResult
  resultPromise : Option Nat
  loading : Bool
  cancelRequest : Option Nat
  expires : Int
  size : Option Int
  subscribers : List Nat
  notified : List (Nat × Option QueryResult)
  dispatches : Nat

/-- `refresh()`: when already loading, hand back the current in-flight
promise unchanged; otherwise mark loading, dispatch a new transport call
(token `fresh`), store its promise and cancel handle, and hand the new
promise back. -/
def refresh (fresh : Nat) (c : CellState) : CellState × Option Nat :=
  if c.loading then (c, c.resultPromise)
  else
    ({ c with loading := true,
              resultPromise := some fresh,
              cancelRequest := some fresh,
              dispatches := c.dispatches + 1 }, some fresh)

/-- `forceRefresh()`: when loading, cancel and discard the in-flight
attempt (no notification), then `refresh()` again with token `fresh`. -/
def forceRefresh (fresh : Nat) (c : CellState) : CellState × Option Nat :=
  let c1 := if c.loading then
      { c with cancelRequest := none, loading := false, resultPromise := none }
    else c
  refresh fresh c1

/-- The completion handler of a refresh attempt with token `attempt`:
commit only when the cell's current in-flight promise is still this
attempt's; then store the result, clear loading and the cancel handle,
expire immediately on errors or update size and (outside no-cache mode)
`expires`, and notify every current subscriber. -/
def completeRefresh (attempt : Nat) (data : QueryResult) (now cacheTimeout : Int)
    (cacheMode : String) (c : CellState) : CellState :=
  if c.resultPromise = some attempt then
    let c1 := { c with result := some data, loading := false, cancelRequest := none }
    let c2 :=
      if errorsNonempty data.errors then { c1 with expires := 0 }
      else
        let c1' := { c1 with size := data.size.map (· + 1000) }
        if cacheMode ≠ "no-cache" then { c1' with expires := now + cacheTimeout } else c1'
    { c2 with notified := c2.notified ++ c2.subscribers.map (fun sub => (sub, some data)) }
  else c

/-! ## Subscription engine (`executeSubscription`) -/

/-- Modelled from the spec: the `CloseReason` enumeration of
`CloseReason.ts` (the file itself is not part of the provided sources) —
`Client` (caller aborted), `Server` (graceful completion), `ServerError`
(protocol-level error frame), `Timeout` (policy-triggered), `Error`
(transport/protocol violation). -/
inductive CloseReason where
  | client
  | server
  | serverError
  | timeout
  | error
deriving DecidableEq

/-- The subscription handshake states of the `executeSubscription` state
machine (`let state: "opening" | "connected"`). -/
inductive SubState where
  | opening
  | connected
deriving DecidableEq

/-- An inbound socket frame as the engine reads it
(`IWebSocketMessage`): a type tag, an optional subscription id and an
optional payload. -/
structure WsMsg where
  type : String
  id : Option String
  payload : Option Json

/-- An outbound client frame (`connection_init` / `subscribe` / `pong`). -/
structure SendMsg where
  type : String
  id : Option String := none
  payload : Option Json := none

/-- The observable outcome of handling one inbound frame: the next
machine state, frames sent, results delivered to the data sink and the
close reason when the session aborts. -/
structure StepResult where
  state : SubState
  sends : List SendMsg := []
  dataOut : List QueryResult := []
  close : Option CloseReason := none

/-- The result `doError` pushes to the data sink before closing with
`Error` (the raised values are strings here). -/
def subErrorResult (m : String) : QueryResult :=
  { networkError := true,
    errors := some (.arr [.obj [("message", .str m)]]),
    extensions := some (.obj [("underlyingError", .str m)]),
    size := some 1000 }

/-- `doError(msg)` at machine state `st`: deliver the diagnostic result,
then abort with `Error`. -/
def subErrorStep (st : SubState) (m : String) : StepResult :=
  { state := st, dataOut := [subErrorResult m], close := some .error }

/-- The `webSocket.onmessage` dispatch for one parsed frame, for a
session that is not aborted and has no timeout strategy consuming the
message: `ping` is answered with a `pong` echoing the payload at any
state; while `opening`, only `connection_ack` is accepted and answered
with a `subscribe` frame carrying the request and id "1"; while
`connected`, `next` / `error` / `complete` frames with the matching id
are dispatched and anything else is a protocol violation.  `rawLen` is
the length of the raw message text (`ev.data`). -/
def subStep (request : Json) (st : SubState) (rawLen : Int) (msg : WsMsg) : StepResult :=
  if msg.type == "ping" then
    { state := st, sends := [{ type := "pong", payload := msg.payload }] }
  else
    match st with
    | .opening =>
      if msg.type ≠ "connection_ack" then
        subErrorStep st "Invalid connection response from WebSocket server"
      else
        { state := .connected,
          sends := [{ type := "subscribe", id := some "1", payload := some request }] }
    | .connected =>
      if msg.type == "next" then
        if !(Json.optTruthy msg.payload) ||
            (!(Json.optTruthy (msg.payload.bind (·.lookup "data"))) &&
             !(Json.optTruthy (msg.payload.bind (·.lookup "errors")))) ||
            msg.id ≠ some "1" then
          subErrorStep st "Invalid payload for 'next' packet"
        else
          { state := st,
            dataOut := [{ networkError := false,
                          size := some rawLen,
                          data := msg.payload.bind (·.lookup "data"),
                          errors := msg.payload.bind (·.lookup "errors"),
                          extensions := msg.payload.bind (·.lookup "extensions") }] }
      else if msg.type == "error" then
        if !(Json.optTruthy msg.payload) || msg.id ≠ some "1" then
          subErrorStep st "Invalid payload for 'error' packet"
        else
          { state := st,
            dataOut := [{ networkError := false, size := some rawLen, errors := msg.payload }],
            close := some .serverError }
      else if msg.type == "complete" then
        if msg.id ≠ some "1" then subErrorStep st "Invalid payload for 'complete' packet"
        else { state := st, close := some .server }
      else
        subErrorStep st "Unknown message type from WebSocket server"

/-! ### Abort path -/

/-- Observable state of one subscription session for the abort path:
the idempotence guard, the engine-wide active-subscription counter, the
invocation traces of the timeout policy's close hook and of the caller's
close callback, the connection promise, and the low-level socket
(`socketReadyState` uses the WebSocket numbering 0 = CONNECTING,
1 = OPEN, 2 = CLOSING, 3 = CLOSED). -/
structure SessionState where
  aborted : Bool
  activeSubscriptions : Int
  timeoutCloseCalls : List CloseReason
  closeCallbackCalls : List CloseReason
  connectionResolved : Bool
  connectionRejected : Bool
  socketReadyState : Nat
  socketCloseCodes : List Nat
deriving DecidableEq

/-- Close code chosen by the abort handler: 4408 for `Timeout`
(connection timeout), 1000 (normal closure) otherwise. -/
def closeCode (r : CloseReason) : Nat :=
  if r = .timeout then 4408 else 1000

/-- `webSocket.close(code)`: a no-op when the socket is already CLOSING
or CLOSED, otherwise the socket enters CLOSING with that code. -/
def webSocketClose (code : Nat) (s : SessionState) : SessionState :=
  if s.socketReadyState = 2 ∨ s.socketReadyState = 3 then s
  else { s with socketReadyState := 2, socketCloseCodes := s.socketCloseCodes ++ [code] }

/-- The fully-wrapped `doAbort(reason)` of an established session: the
base handler (guarded by `aborted`) sets the flag, decrements the
active-subscription counter and fires the timeout-policy close hook and
the caller's close callback; the connection-promise wrapper rejects the
`connected` promise if still pending; the socket wrapper closes the
socket unless it is already CLOSED. -/
def doAbort (r : CloseReason) (s : SessionState) : SessionState :=
  let s1 :=
    if !s.aborted then
      { s with aborted := true,
               activeSubscriptions := s.activeSubscriptions - 1,
               timeoutCloseCalls := s.timeoutCloseCalls ++ [r],
               closeCallbackCalls := s.closeCallbackCalls ++ [r] }
    else s
  let s2 :=
    if !s1.connectionResolved then
      { s1 with connectionResolved := true, connectionRejected := true }
    else s1
  if s2.socketReadyState ≠ 3 then webSocketClose (closeCode r) s2 else s2

/-! ## Theorems -/

/-- **C2.** For every cell that is currently loading, `refresh()` returns
the existing in-flight promise unchanged and starts no new transport
call; consequently, starting from an idle cell a `refresh()` dispatches
exactly one `executeQueryRaw` call and two consecutive `refresh()` calls
made while that attempt is loading return the same promise and add no
dispatch (single-flight). -/
theorem refresh_single_flight (c : CellState) (f1 f2 f3 : Nat) :
    (c.loading = true → refresh f1 c = (c, c.resultPromise)) ∧
    (c.loading = false →
      (refresh f1 c).1.loading = true ∧
      (refresh f1 c).1.dispatches = c.dispatches + 1 ∧
      (refresh f1 c).2 = some f1 ∧
      refresh f2 (refresh f1 c).1 = ((refresh f1 c).1, some f1) ∧
      refresh f3 (refresh f2 (refresh f1 c).1).1 = ((refresh f1 c).1, some f1)) := by
  constructor
  · intro h; simp [refresh, h]
  · intro h; simp [refresh, h]

/-- A concrete idle cell for instantiating the cell-level theorems. -/
def idleCell : CellState :=
  { result := none, resultPromise := none, loading := false, cancelRequest := none,
    expires := 0, size := some 1000, subscribers := [7], notified := [], dispatches := 0 }

/-- Witness for C2 at a concrete idle cell: one dispatch, and the two
subsequent calls while loading return the promise of attempt 4. -/
theorem refresh_single_flight_witness :
    idleCell.loading = false ∧
    ((refresh 4 idleCell).1.loading = true ∧
     (refresh 4 idleCell).1.dispatches = idleCell.dispatches + 1 ∧
     (refresh 4 idleCell).2 = some 4 ∧
     refresh 5 (refresh 4 idleCell).1 = ((refresh 4 idleCell).1, some 4) ∧
     refresh 6 (refresh 5 (refresh 4 idleCell).1).1 = ((refresh 4 idleCell).1, some 4)) :=
  ⟨rfl, (refresh_single_flight idleCell 4 5 6).2 rfl⟩

/-- **C3.** A completion whose attempt token no longer matches the cell's
current in-flight promise is dropped without any effect; in particular a
completion superseded by a `forceRefresh` (which replaced the promise by
a fresh attempt's) is dropped.  A matching completion commits: the result
is stored, loading and the cancel handle are cleared, every subscriber is
notified; a result carrying a non-empty `errors` sequence forces
`expires = 0` (regardless of the governing cache mode), otherwise the
entry's cached size becomes `result.size + 1000` and, unless the mode is
`no-cache`, `expires` becomes `now + cacheTimeout` (under `no-cache` it
is left unchanged). -/
theorem completeRefresh_commit (c : CellState) (attempt : Nat) (data : QueryResult)
    (now cacheTimeout : Int) (cacheMode : String) :
    (c.resultPromise ≠ some attempt →
      completeRefresh attempt data now cacheTimeout cacheMode c = c) ∧
    (∀ fresh, fresh ≠ attempt →
      completeRefresh attempt data now cacheTimeout cacheMode (forceRefresh fresh c).1 =
        (forceRefresh fresh c).1) ∧
    (c.resultPromise = some attempt →
      (completeRefresh attempt data now cacheTimeout cacheMode c).result = some data ∧
      (completeRefresh attempt data now cacheTimeout cacheMode c).loading = false ∧
      (completeRefresh attempt data now cacheTimeout cacheMode c).cancelRequest = none ∧
      (completeRefresh attempt data now cacheTimeout cacheMode c).notified =
        c.notified ++ c.subscribers.map (fun sub => (sub, some data)) ∧
      (errorsNonempty data.errors = true →
        (completeRefresh attempt data now cacheTimeout cacheMode c).expires = 0) ∧
      (errorsNonempty data.errors = false →
        (completeRefresh attempt data now cacheTimeout cacheMode c).size =
          data.size.map (· + 1000) ∧
        (cacheMode ≠ "no-cache" →
          (completeRefresh attempt data now cacheTimeout cacheMode c).expires =
            now + cacheTimeout) ∧
        (cacheMode = "no-cache" →
          (completeRefresh attempt data now cacheTimeout cacheMode c).expires =
            c.expires))) := by
  refine ⟨?_, ?_, ?_⟩
  · intro h; simp [completeRefresh, h]
  · intro fresh hne
    have hp : (forceRefresh fresh c).1.resultPromise = some fresh := by
      by_cases hl : c.loading <;> simp [forceRefresh, refresh, hl]
    have : (forceRefresh fresh c).1.resultPromise ≠ some attempt := by
      rw [hp]; simpa using hne
    simp [completeRefresh, this]
  · intro h
    by_cases herr : errorsNonempty data.errors <;>
      by_cases hmode : cacheMode = "no-cache" <;>
        simp [completeRefresh, h, herr, hmode]

/-- A cell with attempt 4 in flight, for instantiating C3. -/
def loadingCell : CellState :=
  { idleCell with loading := true, resultPromise := some 4, cancelRequest := some 4 }

/-- A concrete successful result for instantiating C3. -/
def sampleData : QueryResult :=
  { data := some (.obj [("x", .num 1)]), networkError := false, size := some 20 }

/-- Witness for C3: committing attempt 4's error-free result on
`loadingCell` under `cache-first` stores the result, sets
`expires = 100 + 3600` and `size = 1020`; the same completion is dropped
after a `forceRefresh` started attempt 9. -/
theorem completeRefresh_commit_witness :
    loadingCell.resultPromise = some 4 ∧
    errorsNonempty sampleData.errors = false ∧
    (completeRefresh 4 sampleData 100 3600 "cache-first" loadingCell).result = some sampleData ∧
    (completeRefresh 4 sampleData 100 3600 "cache-first" loadingCell).expires = 100 + 3600 ∧
    (completeRefresh 4 sampleData 100 3600 "cache-first" loadingCell).size = some 1020 ∧
    completeRefresh 4 sampleData 100 3600 "cache-first" (forceRefresh 9 loadingCell).1 =
      (forceRefresh 9 loadingCell).1 := by
  have h := completeRefresh_commit loadingCell 4 sampleData 100 3600 "cache-first"
  refine ⟨rfl, rfl, (h.2.2 rfl).1, ?_, ?_, h.2.1 9 (by decide)⟩
  · exact ((h.2.2 rfl).2.2.2.2.2 rfl).2.1 (by decide)
  · exact (((h.2.2 rfl).2.2.2.2.2 rfl).1).trans rfl

/-- **C8.** `abort` is idempotent.  On a session not yet aborted, one
`doAbort r` sets the `aborted` flag, decrements the active-subscription
counter by one, notifies the timeout policy's close hook and the caller's
close callback once each, and closes the socket — with code 4408 for
`Timeout` and 1000 otherwise — exactly when the socket is not already
closed.  A second `doAbort` (with any reason) leaves the state exactly as
after the first, so two calls are observably equal to one. -/
theorem doAbort_idempotent (s : SessionState) (r r2 : CloseReason) :
    (s.aborted = false →
      (doAbort r s).aborted = true ∧
      (doAbort r s).activeSubscriptions = s.activeSubscriptions - 1 ∧
      (doAbort r s).timeoutCloseCalls = s.timeoutCloseCalls ++ [r] ∧
      (doAbort r s).closeCallbackCalls = s.closeCallbackCalls ++ [r] ∧
      (s.socketReadyState = 0 ∨ s.socketReadyState = 1 →
        (doAbort r s).socketCloseCodes = s.socketCloseCodes ++ [closeCode r] ∧
        (doAbort r s).socketReadyState = 2) ∧
      (s.socketReadyState = 3 →
        (doAbort r s).socketCloseCodes = s.socketCloseCodes ∧
        (doAbort r s).socketReadyState = 3)) ∧
    closeCode .timeout = 4408 ∧
    (r ≠ .timeout → closeCode r = 1000) ∧
    doAbort r2 (doAbort r s) = doAbort r s := by
  refine ⟨?_, rfl, ?_, ?_⟩
  · intro hab
    by_cases hres : s.connectionResolved <;>
      rcases hst : s.socketReadyState with _ | _ | _ | _ | n <;>
        simp [doAbort, webSocketClose, hab, hres, hst]
  · intro hr; simp [closeCode, hr]
  · by_cases hab : s.aborted <;> by_cases hres : s.connectionResolved <;>
      rcases hst : s.socketReadyState with _ | _ | _ | _ | n <;>
        simp [doAbort, webSocketClose, hab, hres, hst]

/-! ### Properties of the eviction machinery -/

/-- Keys are pairwise distinct — the `Map` invariant of the cache table. -/
def keysNodup (l : List Entry) : Prop :=
  l.Pairwise (fun a b => a.key ≠ b.key)

instance (l : List Entry) : Decidable (keysNodup l) := by
  unfold keysNodup; infer_instance

theorem keysNodup_inj {l : List Entry} (hnd : keysNodup l) :
    ∀ {x e : Entry}, x ∈ l → e ∈ l → x.key = e.key → x = e := by
  induction l with
  | nil => intro x e hx _ _; exact absurd hx (List.not_mem_nil x)
  | cons a t ih =>
    intro x e hx he hk
    rw [keysNodup, List.pairwise_cons] at hnd
    obtain ⟨ha, hnd'⟩ := hnd
    rcases List.mem_cons.1 hx with rfl | hx' <;> rcases List.mem_cons.1 he with rfl | he'
    · rfl
    · exact absurd hk (ha e he')
    · exact absurd hk.symm (ha x hx')
    · exact ih hnd' hx' he' hk

theorem evictLoop_stop {newSize : Int} {ex : Option String} {s : CacheState}
    (h1 : s.cacheSize + newSize - s.maxCacheSize ≤ 0) : evictLoop newSize ex s = s := by
  rw [evictLoop, if_pos h1]

theorem evictLoop_break {newSize : Int} {ex : Option String} {s : CacheState}
    (h1 : ¬ s.cacheSize + newSize - s.maxCacheSize ≤ 0)
    (h2 : findOldest ex s.entries = none) : evictLoop newSize ex s = s := by
  rw [evictLoop, if_neg h1]
  split
  · rfl
  · next e heq => rw [h2] at heq; exact absurd heq (by simp)

theorem evictLoop_step {newSize : Int} {ex : Option String} {s : CacheState} {e : Entry}
    (h1 : ¬ s.cacheSize + newSize - s.maxCacheSize ≤ 0)
    (h2 : findOldest ex s.entries = some e) :
    evictLoop newSize ex s = evictLoop newSize ex (deleteEntry e.key s) := by
  rw [evictLoop, if_neg h1]
  split
  · next heq => rw [h2] at heq; exact absurd heq (by simp)
  · next e' heq => rw [h2] at heq; injection heq with h3; rw [h3]

theorem findOldestAux_some_of_acc (ex : Option String) :
    ∀ (l : List Entry) (b : Entry), ∃ r, findOldestAux ex (some b) l = some r := by
  intro l
  induction l with
  | nil => intro b; exact ⟨b, rfl⟩
  | cons e rest ih =>
    intro b
    by_cases he : eligible ex e = true
    · by_cases hlt : e.lastUsed < b.lastUsed
      · obtain ⟨r, hr⟩ := ih e
        exact ⟨r, by simpa [findOldestAux, he, hlt] using hr⟩
      · obtain ⟨r, hr⟩ := ih b
        exact ⟨r, by simpa [findOldestAux, he, hlt] using hr⟩
    · obtain ⟨r, hr⟩ := ih b
      exact ⟨r, by simpa [findOldestAux, he] using hr⟩

theorem findOldestAux_le_acc {ex : Option String} :
    ∀ (l : List Entry) (b r : Entry), findOldestAux ex (some b) l = some r →
      r.lastUsed ≤ b.lastUsed := by
  intro l
  induction l with
  | nil => intro b r h; injection h with h; rw [h]
  | cons e rest ih =>
    intro b r h
    by_cases he : eligible ex e = true
    · by_cases hlt : e.lastUsed < b.lastUsed
      · have h' : findOldestAux ex (some e) rest = some r := by
          simpa [findOldestAux, he, hlt] using h
        exact le_of_lt (lt_of_le_of_lt (ih e r h') hlt)
      · exact ih b r (by simpa [findOldestAux, he, hlt] using h)
    · exact ih b r (by simpa [findOldestAux, he] using h)

theorem findOldestAux_min {ex : Option String} :
    ∀ (l : List Entry) (acc : Option Entry) (r : Entry), findOldestAux ex acc l = some r →
      ∀ e' ∈ l, eligible ex e' = true → r.lastUsed ≤ e'.lastUsed := by
  intro l
  induction l with
  | nil => intro acc r _ e' he'; exact absurd he' (List.not_mem_nil e')
  | cons e rest ih =>
    intro acc r h e' he' helig
    rcases List.mem_cons.1 he' with rfl | hmem
    · -- the head itself: the accumulator passed on is ≤ the head
      cases acc with
      | none =>
        have h' : findOldestAux ex (some e') rest = some r := by
          simpa [findOldestAux, helig] using h
        exact findOldestAux_le_acc rest e' r h'
      | some b =>
        by_cases hlt : e'.lastUsed < b.lastUsed
        · have h' : findOldestAux ex (some e') rest = some r := by
            simpa [findOldestAux, helig, hlt] using h
          exact findOldestAux_le_acc rest e' r h'
        · have h' : findOldestAux ex (some b) rest = some r := by
            simpa [findOldestAux, helig, hlt] using h
          exact le_trans (findOldestAux_le_acc rest b r h') (not_lt.1 hlt)
    · -- in the tail: recurse with whatever accumulator was passed
      by_cases he : eligible ex e = true
      · cases acc with
        | none =>
          exact ih (some e) r (by simpa [findOldestAux, he] using h) e' hmem helig
        | some b =>
          by_cases hlt : e.lastUsed < b.lastUsed
          · exact ih (some e) r (by simpa [findOldestAux, he, hlt] using h) e' hmem helig
          · exact ih (some b) r (by simpa [findOldestAux, he, hlt] using h) e' hmem helig
      · exact ih acc r (by simpa [findOldestAux, he] using h) e' hmem helig

theorem findOldestAux_none_all {ex : Option String} :
    ∀ (l : List Entry) (acc : Option Entry), findOldestAux ex acc l = none →
      ∀ e' ∈ l, eligible ex e' = false := by
  intro l
  induction l with
  | nil => intro acc _ e' he'; exact absurd he' (List.not_mem_nil e')
  | cons e rest ih =>
    intro acc h e' he'
    by_cases he : eligible ex e = true
    · exfalso
      cases acc with
      | none =>
        obtain ⟨r, hr⟩ := findOldestAux_some_of_acc ex rest e
        have h' : findOldestAux ex (some e) rest = none := by
          simpa [findOldestAux, he] using h
        rw [hr] at h'; exact Option.noConfusion h'
      | some b =>
        by_cases hlt : e.lastUsed < b.lastUsed
        · obtain ⟨r, hr⟩ := findOldestAux_some_of_acc ex rest e
          have h' : findOldestAux ex (some e) rest = none := by
            simpa [findOldestAux, he, hlt] using h
          rw [hr] at h'; exact Option.noConfusion h'
        · obtain ⟨r, hr⟩ := findOldestAux_some_of_acc ex rest b
          have h' : findOldestAux ex (some b) rest = none := by
            simpa [findOldestAux, he, hlt] using h
          rw [hr] at h'; exact Option.noConfusion h'
    · rcases List.mem_cons.1 he' with rfl | hmem
      · exact Bool.not_eq_true _ ▸ (by simpa using he)
      · exact ih acc (by simpa [findOldestAux, he] using h) e' hmem

theorem deleteEntry_subset {k : String} {s : CacheState} {y : Entry}
    (hy : y ∈ (deleteEntry k s).entries) : y ∈ s.entries := by
  unfold deleteEntry at hy
  rcases hf : s.entries.find? (fun x => x.key == k) with _ | e <;> rw [hf] at hy
  · exact hy
  · exact List.mem_of_mem_eraseP hy

theorem mem_deleteEntry_of_ne {k : String} {s : CacheState} {e : Entry}
    (he : e ∈ s.entries) (hk : e.key ≠ k) : e ∈ (deleteEntry k s).entries := by
  rcases hf : s.entries.find? (fun x => x.key == k) with _ | x <;>
    simp only [deleteEntry, hf]
  · exact he
  · exact (List.mem_eraseP_of_neg (by simp [hk])).2 he

theorem keysNodup_deleteEntry {k : String} {s : CacheState}
    (hnd : keysNodup s.entries) : keysNodup (deleteEntry k s).entries := by
  rcases hf : s.entries.find? (fun x => x.key == k) with _ | x <;>
    simp only [deleteEntry, hf]
  · exact hnd
  · exact List.Pairwise.sublist (List.eraseP_sublist _) hnd

theorem notMem_deleteEntry_self {s : CacheState} {e : Entry}
    (hnd : keysNodup s.entries) (he : e ∈ s.entries) :
    e ∉ (deleteEntry e.key s).entries := by
  intro hmem
  have hfind : (s.entries.find? (fun x => x.key == e.key)).isSome := by
    rw [List.find?_isSome]; exact ⟨e, he, by simp⟩
  rcases hf : s.entries.find? (fun x => x.key == e.key) with _ | x
  · rw [hf] at hfind; simp at hfind
  · simp only [deleteEntry, hf] at hmem
    have hex : ∃ b l₁ l₂, (∀ x ∈ l₁, ¬ ((fun x => x.key == e.key) x = true)) ∧
        ((fun x => x.key == e.key) b = true) ∧ s.entries = l₁ ++ b :: l₂ ∧
        s.entries.eraseP (fun x => x.key == e.key) = l₁ ++ l₂ :=
      List.exists_of_eraseP he (by simp)
    obtain ⟨b, l₁, l₂, hl₁, hpb, hleq, herase⟩ := hex
    rw [herase] at hmem
    rcases List.mem_append.1 hmem with h1 | h2
    · exact hl₁ e h1 (by simp)
    · have hbkey : b.key = e.key := by simpa using hpb
      rw [hleq] at hnd
      rw [keysNodup, List.pairwise_append] at hnd
      have hb := List.rel_of_pairwise_cons hnd.2.1 h2
      exact hb hbkey

/-- Deleting by a list of keys none of which is `e.key` keeps `e`. -/
theorem foldl_deleteEntry_mem {e : Entry} :
    ∀ (ks : List Entry) (st : CacheState), e ∈ st.entries →
      (∀ x ∈ ks, x.key ≠ e.key) →
      e ∈ (ks.foldl (fun a b => deleteEntry b.key a) st).entries := by
  intro ks
  induction ks with
  | nil => intro st he _; exact he
  | cons x ks' ih =>
    intro st he hk
    rw [List.foldl_cons]
    have hxk : e.key ≠ x.key := fun h => hk x (by simp) h.symm
    exact ih (deleteEntry x.key st) (mem_deleteEntry_of_ne he hxk)
      (fun y hy => hk y (List.mem_cons_of_mem x hy))

theorem keysNodup_foldl_deleteEntry :
    ∀ (ks : List Entry) (st : CacheState), keysNodup st.entries →
      keysNodup ((ks.foldl (fun a b => deleteEntry b.key a) st).entries) := by
  intro ks
  induction ks with
  | nil => intro st hnd; exact hnd
  | cons x ks' ih =>
    intro st hnd
    rw [List.foldl_cons]
    exact ih (deleteEntry x.key st) (keysNodup_deleteEntry hnd)

theorem foldl_deleteEntry_subset {y : Entry} :
    ∀ (ks : List Entry) (st : CacheState),
      y ∈ (ks.foldl (fun a b => deleteEntry b.key a) st).entries → y ∈ st.entries := by
  intro ks
  induction ks with
  | nil => intro st hy; exact hy
  | cons x ks' ih =>
    intro st hy
    rw [List.foldl_cons] at hy
    exact deleteEntry_subset (ih (deleteEntry x.key st) hy)

theorem foldl_deleteEntry_notMem {e : Entry} :
    ∀ (ks : List Entry) (st : CacheState), keysNodup st.entries →
      (e ∈ ks ∨ e ∉ st.entries) →
      e ∉ (ks.foldl (fun a b => deleteEntry b.key a) st).entries := by
  intro ks
  induction ks with
  | nil =>
    intro st _ h
    rcases h with h | h
    · exact absurd h (List.not_mem_nil e)
    · exact h
  | cons x ks' ih =>
    intro st hnd h
    rw [List.foldl_cons]
    apply ih (deleteEntry x.key st) (keysNodup_deleteEntry hnd)
    by_cases hkey : x.key = e.key
    · right
      by_cases hest : e ∈ st.entries
      · rw [hkey]; exact notMem_deleteEntry_self hnd hest
      · exact fun hm => hest (deleteEntry_subset hm)
    · rcases h with hks | hnst
      · rcases List.mem_cons.1 hks with rfl | hks'
        · exact absurd rfl hkey
        · exact Or.inl hks'
      · exact Or.inr (fun hm => hnst (deleteEntry_subset hm))

theorem sweepExpired_subset {now : Int} {s : CacheState} {y : Entry}
    (hy : y ∈ (sweepExpired now s).entries) : y ∈ s.entries :=
  foldl_deleteEntry_subset _ s hy

theorem keysNodup_sweepExpired {now : Int} {s : CacheState}
    (hnd : keysNodup s.entries) : keysNodup (sweepExpired now s).entries :=
  keysNodup_foldl_deleteEntry _ s hnd

theorem mem_sweepExpired_of_subscribed {now : Int} {s : CacheState} {e : Entry}
    (hnd : keysNodup s.entries) (he : e ∈ s.entries) (hs : 0 < e.subscribers) :
    e ∈ (sweepExpired now s).entries := by
  apply foldl_deleteEntry_mem _ s he
  intro x hx hkey
  have hxe : x ∈ s.entries := List.mem_of_mem_filter hx
  have hx0 : x.subscribers = 0 := by
    have := List.of_mem_filter hx
    simp at this
    exact this.1
  have : x = e := keysNodup_inj hnd hxe he hkey
  rw [this] at hx0
  omega

theorem sweepExpired_removes {now : Int} {s : CacheState} {e : Entry}
    (hnd : keysNodup s.entries) (he : e ∈ s.entries) (hs : e.subscribers = 0)
    (hx : e.expires < now) : e ∉ (sweepExpired now s).entries := by
  apply foldl_deleteEntry_notMem _ s hnd
  left
  rw [List.mem_filter]
  exact ⟨he, by simp [hs, hx]⟩

theorem eligible_iff {ex : Option String} {e : Entry} :
    eligible ex e = true ↔ e.subscribers = 0 ∧ ∀ k, ex = some k → e.key ≠ k := by
  cases ex <;> simp [eligible]

theorem evictLoop_subset {n : Int} {ex : Option String} {y : Entry} :
    ∀ (s : CacheState), y ∈ (evictLoop n ex s).entries → y ∈ s.entries := by
  intro s
  generalize hL : s.entries.length = L
  induction L using Nat.strong_induction_on generalizing s with
  | _ L ih =>
    intro hy
    by_cases h1 : s.cacheSize + n - s.maxCacheSize ≤ 0
    · rwa [evictLoop_stop h1] at hy
    · rcases hfo : findOldest ex s.entries with _ | o
      · rwa [evictLoop_break h1 hfo] at hy
      · rw [evictLoop_step h1 hfo] at hy
        have hlt : (deleteEntry o.key s).entries.length < L := by
          rw [← hL]; exact deleteEntry_length_lt ⟨o, (findOldest_mem hfo).1, rfl⟩
        exact deleteEntry_subset (ih _ hlt _ rfl hy)

theorem evictLoop_preserves_subscribed {n : Int} {ex : Option String} {e : Entry} :
    ∀ (s : CacheState), keysNodup s.entries → e ∈ s.entries → 0 < e.subscribers →
      e ∈ (evictLoop n ex s).entries := by
  intro s
  generalize hL : s.entries.length = L
  induction L using Nat.strong_induction_on generalizing s with
  | _ L ih =>
    intro hnd he hs
    by_cases h1 : s.cacheSize + n - s.maxCacheSize ≤ 0
    · rwa [evictLoop_stop h1]
    · rcases hfo : findOldest ex s.entries with _ | o
      · rwa [evictLoop_break h1 hfo]
      · rw [evictLoop_step h1 hfo]
        obtain ⟨ho, helig⟩ := findOldest_mem hfo
        have ho0 : o.subscribers = 0 := (eligible_iff.1 helig).1
        have hko : e.key ≠ o.key := by
          intro hkey
          have : e = o := keysNodup_inj hnd he ho hkey
          rw [this] at hs; omega
        have hlt : (deleteEntry o.key s).entries.length < L := by
          rw [← hL]; exact deleteEntry_length_lt ⟨o, ho, rfl⟩
        exact ih _ hlt _ rfl (keysNodup_deleteEntry hnd)
          (mem_deleteEntry_of_ne he hko) hs

/-- **C1.** `allocate(newSize, exclude?)` computes
`overflow = cacheSize + newSize - maxCacheSize` and is a no-op when
`overflow ≤ 0`.  Otherwise it (i) removes every entry with zero
subscribers whose `expires` is in the past, and (ii) runs the recency
loop, which — while still over budget — removes the entry with zero
subscribers and smallest `lastUsed` among those not equal to `exclude`,
stopping when under budget or when no such entry remains.  An entry with
at least one subscriber is never removed by `allocate`. -/
theorem allocateCacheSize_spec (s : CacheState) (newSize : Int) (ex : Option String)
    (now : Int) (hnd : keysNodup s.entries) :
    (s.cacheSize + newSize - s.maxCacheSize ≤ 0 →
      allocateCacheSize now newSize ex s = s) ∧
    (0 < s.cacheSize + newSize - s.maxCacheSize →
      allocateCacheSize now newSize ex s = evictLoop newSize ex (sweepExpired now s)) ∧
    (∀ e ∈ s.entries, 0 < e.subscribers →
      e ∈ (allocateCacheSize now newSize ex s).entries) ∧
    (0 < s.cacheSize + newSize - s.maxCacheSize →
      ∀ e ∈ s.entries, e.subscribers = 0 → e.expires < now →
        e ∉ (allocateCacheSize now newSize ex s).entries) ∧
    (∀ st : CacheState,
      (st.cacheSize + newSize - st.maxCacheSize ≤ 0 → evictLoop newSize ex st = st) ∧
      (¬ st.cacheSize + newSize - st.maxCacheSize ≤ 0 →
        findOldest ex st.entries = none → evictLoop newSize ex st = st) ∧
      (∀ o : Entry, ¬ st.cacheSize + newSize - st.maxCacheSize ≤ 0 →
        findOldest ex st.entries = some o →
        evictLoop newSize ex st = evictLoop newSize ex (deleteEntry o.key st))) ∧
    (∀ (l : List Entry) (o : Entry), findOldest ex l = some o →
      o ∈ l ∧ o.subscribers = 0 ∧ (∀ k, ex = some k → o.key ≠ k) ∧
      ∀ e' ∈ l, e'.subscribers = 0 → (∀ k, ex = some k → e'.key ≠ k) →
        o.lastUsed ≤ e'.lastUsed) ∧
    (∀ l : List Entry, findOldest ex l = none →
      ∀ e' ∈ l, e'.subscribers = 0 → (∀ k, ex = some k → e'.key ≠ k) → False) := by
  refine ⟨?_, ?_, ?_, ?_, ?_, ?_, ?_⟩
  · intro h; rw [allocateCacheSize, if_pos h]
  · intro h; rw [allocateCacheSize, if_neg (by omega)]
  · intro e he hs
    by_cases h : s.cacheSize + newSize - s.maxCacheSize ≤ 0
    · rw [allocateCacheSize, if_pos h]; exact he
    · rw [allocateCacheSize, if_neg h]
      exact evictLoop_preserves_subscribed _ (keysNodup_sweepExpired hnd)
        (mem_sweepExpired_of_subscribed hnd he hs) hs
  · intro h e he hs hx
    rw [allocateCacheSize, if_neg (by omega)]
    intro hmem
    exact sweepExpired_removes hnd he hs hx (evictLoop_subset _ hmem)
  · intro st
    refine ⟨fun h => evictLoop_stop h, fun h1 h2 => evictLoop_break h1 h2,
      fun o h1 h2 => evictLoop_step h1 h2⟩
  · intro l o hfo
    obtain ⟨ho, helig⟩ := findOldest_mem hfo
    obtain ⟨ho0, hex⟩ := eligible_iff.1 helig
    exact ⟨ho, ho0, hex, fun e' he' hs' hex' =>
      findOldestAux_min l none o hfo e' he' (eligible_iff.2 ⟨hs', hex'⟩)⟩
  · intro l hfo e' he' hs' hex'
    have := findOldestAux_none_all l none hfo e' he'
    rw [eligible_iff.2 ⟨hs', hex'⟩] at this
    exact Bool.noConfusion this

/-- Entry A: idle and expired at time 100. -/
def entryA : Entry := { key := "A", size := 1000, expires := 50, lastUsed := 30, subscribers := 0 }

/-- Entry B: idle, unexpired, oldest `lastUsed` among unexpired entries. -/
def entryB : Entry := { key := "B", size := 1000, expires := 200, lastUsed := 10, subscribers := 0 }

/-- Entry C: in active use (one subscriber). -/
def entryC : Entry := { key := "C", size := 1000, expires := 200, lastUsed := 5, subscribers := 1 }

/-- A full cache holding A, B and C at its 3000-byte budget. -/
def cacheABC : CacheState := { entries := [entryA, entryB, entryC], cacheSize := 3000, maxCacheSize := 3000 }

/-- Witness for C1 on the A/B/C scenario: allocating 1000 bytes evicts
only the expired idle entry A; allocating 2000 evicts A and then the
least-recently-used idle entry B; allocating far over budget still leaves
the subscribed entry C in place (over-budget tolerated). -/
theorem allocateCacheSize_spec_witness :
    keysNodup cacheABC.entries ∧
    allocateCacheSize 100 1000 none cacheABC =
      { entries := [entryB, entryC], cacheSize := 2000, maxCacheSize := 3000 } ∧
    allocateCacheSize 100 2000 none cacheABC =
      { entries := [entryC], cacheSize := 1000, maxCacheSize := 3000 } ∧
    allocateCacheSize 100 999999 none cacheABC =
      { entries := [entryC], cacheSize := 1000, maxCacheSize := 3000 } ∧
    entryC ∈ (allocateCacheSize 100 999999 none cacheABC).entries ∧
    entryA ∉ (allocateCacheSize 100 2000 none cacheABC).entries := by
  have h1000 := allocateCacheSize_spec cacheABC 1000 none 100 (by decide)
  have h2000 := allocateCacheSize_spec cacheABC 2000 none 100 (by decide)
  have h9 := allocateCacheSize_spec cacheABC 999999 none 100 (by decide)
  have hsweep : sweepExpired 100 cacheABC =
      { entries := [entryB, entryC], cacheSize := 2000, maxCacheSize := 3000 } := by decide
  refine ⟨by decide, ?_, ?_, ?_, ?_, ?_⟩
  · rw [h1000.2.1 (by decide), hsweep, evictLoop_stop (by decide)]
  · rw [h2000.2.1 (by decide), hsweep,
      evictLoop_step (by decide) (show findOldest none _ = some entryB from by decide)]
    have hdel : deleteEntry entryB.key
        { entries := [entryB, entryC], cacheSize := 2000, maxCacheSize := 3000 } =
        { entries := [entryC], cacheSize := 1000, maxCacheSize := 3000 } := by decide
    rw [hdel, evictLoop_stop (by decide)]
  · rw [h9.2.1 (by decide), hsweep,
      evictLoop_step (by decide) (show findOldest none _ = some entryB from by decide)]
    have hdel : deleteEntry entryB.key
        { entries := [entryB, entryC], cacheSize := 2000, maxCacheSize := 3000 } =
        { entries := [entryC], cacheSize := 1000, maxCacheSize := 3000 } := by decide
    rw [hdel, evictLoop_break (by decide) (show findOldest none _ = none from by decide)]
  · exact h9.2.2.1 entryC (by decide) (by decide)
  · exact h2000.2.2.2.1 (by decide) entryA (by decide) rfl (by decide)

/-- A live session (socket OPEN, connection acknowledged, one active
subscription) for instantiating C8. -/
def liveSession : SessionState :=
  { aborted := false, activeSubscriptions := 1, timeoutCloseCalls := [],
    closeCallbackCalls := [], connectionResolved := true, connectionRejected := false,
    socketReadyState := 1, socketCloseCodes := [] }

/-- Witness for C8 at a live session and reason `Timeout`: the first
abort decrements the counter to 0, fires both close hooks once, closes
the socket with code 4408, and a second abort changes nothing. -/
theorem doAbort_idempotent_witness :
    liveSession.aborted = false ∧
    (doAbort .timeout liveSession).aborted = true ∧
    (doAbort .timeout liveSession).activeSubscriptions = 0 ∧
    (doAbort .timeout liveSession).timeoutCloseCalls = [CloseReason.timeout] ∧
    (doAbort .timeout liveSession).closeCallbackCalls = [CloseReason.timeout] ∧
    (doAbort .timeout liveSession).socketCloseCodes = [4408] ∧
    doAbort .client (doAbort .timeout liveSession) = doAbort .timeout liveSession := by
  have h := doAbort_idempotent liveSession .timeout .client
  obtain ⟨hfirst, -, -, -⟩ := h
  obtain ⟨h1, h2, h3, h4, h5, -⟩ := hfirst rfl
  refine ⟨rfl, h1, by rw [h2]; rfl, by rw [h3]; rfl, by rw [h4]; rfl, ?_,
    (doAbort_idempotent liveSession .timeout .client).2.2.2⟩
  rw [(h5 (Or.inr rfl)).1]; rfl

/-- **C4.** Under `no-cache` mode, `getOrCreateCacheEntry` never reuses
an idle entry: a found entry with zero subscribers is evicted and a
fresh entry (with `expires = 0`, `lastUsed = now`, no subscribers,
initial size 1000) is created, whereas a found entry with at least one
subscriber is reused with only `lastUsed` updated.  Moreover a cell
governed by `no-cache` never acquires a non-zero `expires` on refresh
completion: starting from `expires = 0`, completion leaves it 0. -/
theorem getOrCreateCacheEntry_noCache (s : CacheState) (key : String) (now : Int) (e : Entry) :
    (s.entries.find? (fun x => x.key == key) = some e → e.subscribers = 0 →
      getOrCreateCacheEntry key true now s = createCacheEntry key now (deleteEntry key s) ∧
      (getOrCreateCacheEntry key true now s).2 =
        { key := key, expires := 0, lastUsed := now, subscribers := 0, size := 1000 }) ∧
    (s.entries.find? (fun x => x.key == key) = some e → 0 < e.subscribers →
      getOrCreateCacheEntry key true now s =
        (updateEntry key { e with lastUsed := now } s, { e with lastUsed := now })) ∧
    (∀ (c : CellState) (attempt : Nat) (data : QueryResult) (n t : Int),
      c.expires = 0 → (completeRefresh attempt data n t "no-cache" c).expires = 0) := by
  refine ⟨?_, ?_, ?_⟩
  · intro hf hs
    have hcond : ¬ (0 < e.subscribers ∨ true = false) := by
      rw [hs]; simp
    constructor
    · simp [getOrCreateCacheEntry, hf, hs]
    · simp [getOrCreateCacheEntry, hf, hs, createCacheEntry]
  · intro hf hs
    simp [getOrCreateCacheEntry, hf, hs]
  · intro c attempt data n t h0
    by_cases hp : c.resultPromise = some attempt
    · by_cases herr : errorsNonempty data.errors <;>
        simp [completeRefresh, hp, herr, h0]
    · simp [completeRefresh, hp, h0]

/-- A cache holding one idle entry under key "k" and one subscribed
entry under key "m", for instantiating C4. -/
def cacheKM : CacheState :=
  { entries := [{ key := "k", size := 1500, expires := 500, lastUsed := 10, subscribers := 0 },
                { key := "m", size := 1500, expires := 500, lastUsed := 10, subscribers := 2 }],
    cacheSize := 3000, maxCacheSize := 1000000 }

/-- Witness for C4: under `no-cache`, looking up the idle entry "k"
yields a fresh entry, looking up the subscribed entry "m" reuses it with
`lastUsed` updated, and a `no-cache` completion keeps `expires = 0`. -/
theorem getOrCreateCacheEntry_noCache_witness :
    cacheKM.entries.find? (fun x => x.key == "k") =
      some { key := "k", size := 1500, expires := 500, lastUsed := 10, subscribers := 0 } ∧
    (getOrCreateCacheEntry "k" true 777 cacheKM).2 =
      { key := "k", expires := 0, lastUsed := 777, subscribers := 0, size := 1000 } ∧
    getOrCreateCacheEntry "m" true 777 cacheKM =
      (updateEntry "m" { key := "m", size := 1500, expires := 500, lastUsed := 777, subscribers := 2 } cacheKM,
       { key := "m", size := 1500, expires := 500, lastUsed := 777, subscribers := 2 }) ∧
    (completeRefresh 4 sampleData 100 3600 "no-cache" idleCell).expires = 0 := by
  have hk := getOrCreateCacheEntry_noCache cacheKM "k" 777
    { key := "k", size := 1500, expires := 500, lastUsed := 10, subscribers := 0 }
  have hm := getOrCreateCacheEntry_noCache cacheKM "m" 777
    { key := "m", size := 1500, expires := 500, lastUsed := 10, subscribers := 2 }
  exact ⟨by decide, (hk.1 (by decide) rfl).2, hm.2.1 (by decide) (by decide),
    hk.2.2 idleCell 4 sampleData 100 3600 rfl⟩

theorem pendingRun_balance : ∀ (evs : List Bool) (p : Int) (o : Nat),
    pendingRun evs = some (p, o) → p = (o : Int) := by
  intro evs
  induction evs with
  | nil =>
    intro p o h
    simp [pendingRun] at h
    obtain ⟨h1, h2⟩ := h
    omega
  | cons ev rest ih =>
    intro p o h
    rcases hr : pendingRun rest with _ | pr
    · rw [pendingRun, hr] at h; exact absurd h (by simp)
    · obtain ⟨p', o'⟩ := pr
      have hb := ih p' o' hr
      rw [pendingRun, hr] at h
      cases ev
      · cases o' with
        | zero => simp at h
        | succ o'' =>
          simp at h
          obtain ⟨h1, h2⟩ := h
          omega
      · simp at h
        obtain ⟨h1, h2⟩ := h
        omega

/-- **C9.** One `executeQueryRaw` call increments the pending-request
counter exactly once (at dispatch) and decrements it exactly once on
every completion path — fetch fulfillment, fetch rejection, and
configuration/transform failure alike.  Consequently, over any realizable
event trace (each completion matching one outstanding dispatch), the
counter equals the number of outstanding requests: it is never negative
and is zero exactly when no requests are outstanding. -/
theorem pendingRequests_counter (t : TransformOutcome) (f : FetchOutcome)
    (evs : List Bool) (p : Int) (o : Nat) :
    pendingIncrements t f = 1 ∧
    pendingDecrements t f = 1 ∧
    (pendingRun evs = some (p, o) → p = (o : Int)) ∧
    (pendingRun evs = some (p, o) → 0 ≤ p) ∧
    (pendingRun evs = some (p, 0) → p = 0) := by
  refine ⟨rfl, ?_, ?_, ?_, ?_⟩
  · cases t with
    | err e => rfl
    | ok => cases f <;> rfl
  · exact pendingRun_balance evs p o
  · intro h
    have := pendingRun_balance evs p o h
    omega
  · intro h
    have := pendingRun_balance evs p 0 h
    simpa using this

/-- Witness for C9: a transform-failure path still decrements once, and
the trace dispatch–dispatch–complete leaves the counter at 1 with one
request outstanding. -/
theorem pendingRequests_counter_witness :
    pendingIncrements (.err (.str "boom")) (.reject (.str "x")) = 1 ∧
    pendingDecrements (.err (.str "boom")) (.reject (.str "x")) = 1 ∧
    pendingRun [false, true, true] = some (1, 1) ∧
    (1 : Int) = ((1 : Nat) : Int) := by
  have h := pendingRequests_counter (.err (.str "boom")) (.reject (.str "x"))
    [false, true, true] 1 1
  exact ⟨h.1, h.2.1, by decide, h.2.2.1 (by decide)⟩

/-- On a valid response with a parsed body, the pipeline yields the
parsed-body result. -/
theorem executeQueryRawResult_parse {v : Bool} {resp : HttpResponse} {j : Json}
    (h1 : responseValid v resp.status resp.contentTypeHeader = true)
    (h2 : resp.bodyJson = .ok j) :
    executeQueryRawResult v .ok (.ok resp) = parseBodyResult resp j := by
  simp [executeQueryRawResult, h1, h2]

/-- **C5.** `executeQueryRaw` accepts and parses as JSON exactly the
responses its validation admits: with strict content-type validation off,
any 2xx or 4xx status; with it on, 2xx additionally requires content type
`application/graphql-response+json` or `application/json` and 4xx
requires `application/graphql-response+json`.  Any other combination
yields a network-error result carrying the status text and built without
consulting the body; a transform-hook failure, a transport rejection and
a JSON-parse failure each yield a network-error result.  The pipeline
function is total — the promise never rejects. -/
theorem executeQueryRaw_error_results (v : Bool) (resp : HttpResponse) (e j : Json)
    (f : FetchOutcome) :
    (responseValid false resp.status resp.contentTypeHeader = true ↔
      ((200 ≤ resp.status ∧ resp.status < 300) ∨
       (400 ≤ resp.status ∧ resp.status < 500))) ∧
    (responseValid true resp.status resp.contentTypeHeader = true ↔
      ((200 ≤ resp.status ∧ resp.status < 300 ∧
         (normalizeContentType resp.contentTypeHeader = some "application/graphql-response+json" ∨
          normalizeContentType resp.contentTypeHeader = some "application/json")) ∨
       (400 ≤ resp.status ∧ resp.status < 500 ∧
         normalizeContentType resp.contentTypeHeader = some "application/graphql-response+json"))) ∧
    (responseValid v resp.status resp.contentTypeHeader = true → resp.bodyJson = .ok j →
      executeQueryRawResult v .ok (.ok resp) = parseBodyResult resp j) ∧
    (responseValid v resp.status resp.contentTypeHeader = false →
      executeQueryRawResult v .ok (.ok resp) = invalidStatusResult resp.statusText ∧
      (invalidStatusResult resp.statusText).networkError = true ∧
      (invalidStatusResult resp.statusText).errors =
        some (.arr [.obj [("message", .str resp.statusText)]])) ∧
    (executeQueryRawResult v (.err e) f).networkError = true ∧
    (executeQueryRawResult v .ok (.reject e)).networkError = true ∧
    (responseValid v resp.status resp.contentTypeHeader = true → resp.bodyJson = .error e →
      executeQueryRawResult v .ok (.ok resp) = fetchCatchResult e ∧
      (fetchCatchResult e).networkError = true) := by
  refine ⟨?_, ?_, ?_, ?_, rfl, rfl, ?_⟩
  · simp [responseValid]
  · simp [responseValid]
  · intro h1 h2; exact executeQueryRawResult_parse h1 h2
  · intro h1; exact ⟨by simp [executeQueryRawResult, h1], rfl, rfl⟩
  · intro h1 h2; exact ⟨by simp [executeQueryRawResult, h1, h2], rfl⟩

/-- An HTTP 500 response with a non-matching content type. -/
def resp500 : HttpResponse :=
  { status := 500, statusText := "Internal Server Error",
    contentTypeHeader := some "text/html", contentLengthHeader := none,
    bodyJson := .ok .null }

/-- Witness for C5: under strict validation, the 500 response is invalid
and produces the status-text network-error result; a transform failure
and a fetch rejection also produce network-error results. -/
theorem executeQueryRaw_error_results_witness :
    responseValid true resp500.status resp500.contentTypeHeader = false ∧
    executeQueryRawResult true .ok (.ok resp500) =
      invalidStatusResult "Internal Server Error" ∧
    (invalidStatusResult "Internal Server Error").networkError = true ∧
    (executeQueryRawResult true (.err (.str "hook failed")) (.ok resp500)).networkError = true ∧
    (executeQueryRawResult true .ok (.reject (.str "network down"))).networkError = true := by
  have h := executeQueryRaw_error_results true resp500 (.str "hook failed") .null (.ok resp500)
  have h2 := executeQueryRaw_error_results true resp500 (.str "network down") .null (.ok resp500)
  obtain ⟨hinv, hne, -⟩ := h.2.2.2.1 rfl
  exact ⟨rfl, hinv, hne, h.2.2.2.2.1, h2.2.2.2.2.2.1⟩

/-- **C6.** For a successfully parsed response, `size` is the
`parseInt` value of a present (truthy) `Content-Length` header, and
otherwise the length of the re-serialized JSON body; a non-empty parsed
`errors` sequence clears `data`, which otherwise carries the body's
`data` field; the result is not a network error. -/
theorem executeQueryRaw_size_rules (v : Bool) (resp : HttpResponse) (j : Json)
    (hvalid : responseValid v resp.status resp.contentTypeHeader = true)
    (hbody : resp.bodyJson = .ok j) :
    (executeQueryRawResult v .ok (.ok resp)).networkError = false ∧
    (∀ s : String, resp.contentLengthHeader = some s → s ≠ "" →
      (executeQueryRawResult v .ok (.ok resp)).size = jsParseInt s) ∧
    (resp.contentLengthHeader = none →
      (executeQueryRawResult v .ok (.ok resp)).size =
        some ((Json.stringify j).length : Int)) ∧
    (resp.contentLengthHeader = some "" →
      (executeQueryRawResult v .ok (.ok resp)).size =
        some ((Json.stringify j).length : Int)) ∧
    (errorsNonempty (j.lookup "errors") = true →
      (executeQueryRawResult v .ok (.ok resp)).data = none) ∧
    (errorsNonempty (j.lookup "errors") = false →
      (executeQueryRawResult v .ok (.ok resp)).data = j.lookup "data") := by
  rw [executeQueryRawResult_parse hvalid hbody]
  refine ⟨rfl, ?_, ?_, ?_, ?_, ?_⟩
  · intro s hs hne; simp [parseBodyResult, hs, hne]
  · intro hs; simp [parseBodyResult, hs]
  · intro hs; simp [parseBodyResult, hs]
  · intro herr; simp [parseBodyResult, herr]
  · intro herr; simp [parseBodyResult, herr]

/-- HTTP 200 with body `{"data":{"x":1}}` and `Content-Length: 20`. -/
def resp200 : HttpResponse :=
  { status := 200, statusText := "OK", contentTypeHeader := none,
    contentLengthHeader := some "20",
    bodyJson := .ok (.obj [("data", .obj [("x", .num 1)])]) }

/-- Witness for C6 — the end-to-end scenario: executing against
`resp200` yields `data = {x:1}`, no errors, `networkError = false` and
`size = 20`. -/
theorem executeQueryRaw_size_rules_witness :
    responseValid false resp200.status resp200.contentTypeHeader = true ∧
    (executeQueryRawResult false .ok (.ok resp200)).networkError = false ∧
    (executeQueryRawResult false .ok (.ok resp200)).size = jsParseInt "20" ∧
    executeQueryRawResult false .ok (.ok resp200) =
      { data := some (.obj [("x", .num 1)]), errors := none, networkError := false,
        size := some 20, extensions := none } := by
  have h := executeQueryRaw_size_rules false resp200
    (.obj [("data", .obj [("x", .num 1)])]) rfl rfl
  exact ⟨rfl, h.1, h.2.1 "20" rfl (by decide), by rfl⟩

/-- **C7.** The subscription message dispatch: a `next` frame while
`Opening` is a protocol violation closing the session with `Error`; a
`connection_ack` while `Opening` transitions to `Connected` and sends a
`subscribe` frame with the fixed id "1"; while `Connected`, a `next`
frame with matching id and truthy `data` or `errors` is delivered to the
data sink as a result with `networkError = false` and size equal to the
raw message length, an `error` frame with matching id delivers a result
carrying only the errors payload and closes with `ServerError`, a
`complete` frame with matching id closes with `Server`, and any other
message type closes with `Error`; a `ping` frame at any state is
answered with a `pong` echoing its payload, without state transition. -/
theorem subStep_protocol (request : Json) (rawLen : Int) (msg : WsMsg) (st : SubState) :
    (msg.type = "ping" →
      subStep request st rawLen msg =
        { state := st, sends := [{ type := "pong", payload := msg.payload }] }) ∧
    (msg.type = "next" →
      subStep request .opening rawLen msg =
        subErrorStep .opening "Invalid connection response from WebSocket server" ∧
      (subStep request .opening rawLen msg).close = some .error ∧
      (subStep request .opening rawLen msg).state = .opening) ∧
    (msg.type = "connection_ack" →
      subStep request .opening rawLen msg =
        { state := .connected,
          sends := [{ type := "subscribe", id := some "1", payload := some request }] }) ∧
    (msg.type = "next" → msg.id = some "1" → Json.optTruthy msg.payload = true →
      (Json.optTruthy (msg.payload.bind (·.lookup "data")) = true ∨
       Json.optTruthy (msg.payload.bind (·.lookup "errors")) = true) →
      subStep request .connected rawLen msg =
        { state := .connected,
          dataOut := [{ networkError := false, size := some rawLen,
                        data := msg.payload.bind (·.lookup "data"),
                        errors := msg.payload.bind (·.lookup "errors"),
                        extensions := msg.payload.bind (·.lookup "extensions") }] }) ∧
    (msg.type = "error" → msg.id = some "1" → Json.optTruthy msg.payload = true →
      subStep request .connected rawLen msg =
        { state := .connected,
          dataOut := [{ networkError := false, size := some rawLen, errors := msg.payload }],
          close := some .serverError }) ∧
    (msg.type = "complete" → msg.id = some "1" →
      subStep request .connected rawLen msg = { state := .connected, close := some .server }) ∧
    (msg.type ≠ "ping" → msg.type ≠ "next" → msg.type ≠ "error" → msg.type ≠ "complete" →
      (subStep request .connected rawLen msg).close = some .error ∧
      (subStep request .connected rawLen msg).dataOut =
        [subErrorResult "Unknown message type from WebSocket server"]) := by
  refine ⟨?_, ?_, ?_, ?_, ?_, ?_, ?_⟩
  · intro h; simp [subStep, h]
  · intro h; refine ⟨by simp [subStep, h], ?_, ?_⟩ <;> simp [subStep, h, subErrorStep]
  · intro h; simp [subStep, h]
  · intro h hid hp hde
    rcases hde with hd | he
    · simp [subStep, h, hid, hp, hd]
    · simp [subStep, h, hid, hp, he]
  · intro h hid hp; simp [subStep, h, hid, hp]
  · intro h hid; simp [subStep, h, hid]
  · intro h1 h2 h3 h4
    constructor <;> simp [subStep, h1, h2, h3, h4, subErrorStep]

/-- Witness for C7 at concrete frames: `next` while opening closes with
`Error`; `connection_ack` sends `subscribe` id "1"; a valid `next` while
connected delivers the data payload with size 42; `complete` closes with
`Server`; a `ping` while opening is answered by a `pong` echoing its
payload. -/
theorem subStep_protocol_witness :
    (subStep (.obj [("query", .str "q")]) .opening 42
        { type := "next", id := some "1", payload := some (.obj [("data", .num 7)]) }).close =
      some .error ∧
    subStep (.obj [("query", .str "q")]) .opening 42
        { type := "connection_ack", id := none, payload := none } =
      { state := .connected,
        sends := [{ type := "subscribe", id := some "1",
                    payload := some (.obj [("query", .str "q")]) }] } ∧
    subStep (.obj [("query", .str "q")]) .connected 42
        { type := "next", id := some "1", payload := some (.obj [("data", .num 7)]) } =
      { state := .connected,
        dataOut := [{ networkError := false, size := some 42, data := some (.num 7),
                      errors := none, extensions := none }] } ∧
    subStep (.obj [("query", .str "q")]) .connected 42
        { type := "complete", id := some "1", payload := none } =
      { state := .connected, close := some .server } ∧
    subStep (.obj [("query", .str "q")]) .opening 42
        { type := "ping", id := none, payload := some (.str "pl") } =
      { state := .opening, sends := [{ type := "pong", payload := some (.str "pl") }] } := by
  have hnext := subStep_protocol (.obj [("query", .str "q")]) 42
    { type := "next", id := some "1", payload := some (.obj [("data", .num 7)]) }
  have hack := subStep_protocol (.obj [("query", .str "q")]) 42
    { type := "connection_ack", id := none, payload := none }
  have hcomp := subStep_protocol (.obj [("query", .str "q")]) 42
    { type := "complete", id := some "1", payload := none }
  have hping := subStep_protocol (.obj [("query", .str "q")]) 42
    { type := "ping", id := none, payload := some (.str "pl") }
  refine ⟨((hnext .opening).2.1 rfl).2.1, (hack .opening).2.2.1 rfl, ?_,
    (hcomp .connected).2.2.2.2.2.1 rfl rfl, (hping .opening).1 rfl⟩
  have := (hnext .connected).2.2.2.1 rfl rfl (by rfl) (Or.inl (by rfl))
  rw [this]
  rfl

/-- A cache holding one unexpired idle entry of size 1000 under key "k",
with a large budget. -/
def entryK : Entry := { key := "k", size := 1000, expires := 9999, lastUsed := 0, subscribers := 0 }

/-- The store for the C10 failing input: total 1000 matches the sum. -/
def cacheK : CacheState := { entries := [entryK], cacheSize := 1000, maxCacheSize := 1000000 }

/-- **C10.** Evaluation of `setCacheEntrySize` at the failing input: the
store starts with `cacheSize` equal to the sum of entry sizes (1000);
growing the stored entry to 2000 bytes leaves `cacheSize` at 1000 —
because the code adds back `entry.size` *before* assigning
`cacheEntry.size = newSize` — while the entry table now sums to 2000, so
the running total no longer equals the sum of the stored sizes. -/
theorem setCacheEntrySize_size_mismatch :
    sumSizes cacheK = cacheK.cacheSize ∧
    cacheK.cacheSize + 2000 - cacheK.maxCacheSize ≤ 0 ∧
    (setCacheEntrySize entryK 2000 100 cacheK).1.cacheSize = 1000 ∧
    sumSizes (setCacheEntrySize entryK 2000 100 cacheK).1 = 2000 ∧
    sumSizes (setCacheEntrySize entryK 2000 100 cacheK).1 ≠
      (setCacheEntrySize entryK 2000 100 cacheK).1.cacheSize := by
  refine ⟨by decide, by decide, ?_, ?_, ?_⟩ <;> decide
